import Mathlib

/-!
Verification of the home_web gateway against its specification.

The development shallowly embeds the two source files of the repository:

- src/service_discovery.rs : the service-discovery directory (struct Proxy), its
  discovery task, its expiry task and its read API;
- src/main.rs : the list page, the per-device rgbw handler, the static label
  table and the CBOR helpers.

Machine integers are modeled as Nat (all arithmetic here stays far below any
overflow boundary: u8 bounds are checked explicitly where the Rust code checks
them).  SystemTime instants and Durations are modeled as Nat (seconds).
Fallible or panicking code paths are modeled with Option / Except / explicit
result inductives, with none standing for a Rust panic.
-/

namespace HomeWeb

/-- Model of std::net::SocketAddr: the claims never look inside an address, so
it is plain data (an IP word and a port). -/
structure SockAddr where
  ip : Nat
  port : Nat
deriving DecidableEq

/-- Model of ProxyEntry (src/service_discovery.rs, lines 10-14).  The
SystemTime field is a Nat instant. -/
structure ProxyEntry where
  update_timestamp : Nat
  service_type : Option String
  address : SockAddr
deriving DecidableEq

/-- The Directory: HashMap<String, ProxyEntry> modeled as an association list
whose keys are unique when built from the empty map by insertEntry.  HashMap
iteration order is unspecified, so every theorem quantifies over arbitrary
list orders. -/
abbrev Dir := List (String × ProxyEntry)

/-- Model of HashMap::insert as used by Proxy::discovery_thread (line 44):
replaces the record of an existing key wholesale, otherwise adds a new
binding. -/
def insertEntry (d : Dir) (k : String) (v : ProxyEntry) : Dir :=
  if d.any (fun p => p.1 = k) then
    d.map (fun p => if p.1 = k then (k, v) else p)
  else
    d ++ [(k, v)]

/-- Model of HashMap::get for the Directory. -/
def lookupEntry (d : Dir) (k : String) : Option ProxyEntry :=
  (d.find? (fun p => p.1 = k)).map (fun p => p.2)

/-- Model of Proxy::service (src/service_discovery.rs, lines 77-83): a lookup
returning a copy (type, address) of the record. -/
def Proxy.service (d : Dir) (name : String) : Option (Option String × SockAddr) :=
  (lookupEntry d name).map (fun e => (e.service_type, e.address))

/-- Model of Proxy::all (src/service_discovery.rs, lines 68-75). -/
def Proxy.all (d : Dir) : List (String × Option String × SockAddr) :=
  d.map (fun p => (p.1, p.2.service_type, p.2.address))

/-- One entry of a CoAP service-discovery response, the Rust tuple
(id, type?, address) of Proxy::discovery_thread. -/
abbrev Service := String × Option String × SockAddr

/-- Proxy::CLEANUP_TIMEOUT = 3600 seconds. -/
def CLEANUP_TIMEOUT : Nat := 3600

/-- Retain condition of Proxy::cleanup_thread (lines 59-63):
v.update_timestamp.elapsed().unwrap_or(Duration::ZERO) < CLEANUP_TIMEOUT.
SystemTime::elapsed is Err exactly when the stored instant lies in the future,
and unwrap_or maps that to 0; truncated Nat subtraction now - ts is the same
function of (now, ts).  The horizon is kept as a parameter so that the spec
operation expire(horizon, now) is this definition instantiated at
horizon = CLEANUP_TIMEOUT. -/
def keepEntry (horizon now : Nat) (e : ProxyEntry) : Bool :=
  now - e.update_timestamp < horizon

/-- Model of the retain sweep of Proxy::cleanup_thread; the spec operation
expire(horizon, now). -/
def expireSweep (horizon now : Nat) (d : Dir) : Dir :=
  d.filter (fun p => keepEntry horizon now p.2)

/-- Body of the for-loop of Proxy::discovery_thread (lines 43-49): every
discovered service is inserted with SystemTime::now() read at that iteration,
so the batch is modeled as a list of (timestamp, service) pairs applied left
to right. -/
def processBatch (batch : List (Nat × Service)) (d : Dir) : Dir :=
  batch.foldl (fun acc it => insertEntry acc it.2.1 ⟨it.1, it.2.2.1, it.2.2.2⟩) d

/-- One iteration of the loop of Proxy::discovery_thread (lines 40-52).  The
Rust code runs coap.service_discovery(None, None).await.unwrap(): on Err the
unwrap panics, aborting the task (modeled as none, and the loop never reaches
another cycle); on Ok the batch is folded into the directory. -/
def discoveryCycle (resp : Except String (List (Nat × Service))) (d : Dir) :
    Option Dir :=
  match resp with
  | Except.error _ => none
  | Except.ok batch => some (processBatch batch d)

/-- The static SERVICE_NAMES table of src/main.rs (lines 54-82). -/
def SERVICE_NAMES : List (String × String) :=
  [("ap", "Ventilation system"),
   ("bac", "Bedroom air conditioner"),
   ("bbl", "Bedroom lights over the bed"),
   ("bbsw", "Bedroom light switch over the bed"),
   ("br", "Bedroom shades"),
   ("bwl", "Bedroom lights by the wardrobe"),
   ("bwsw", "Bedroom light switch by the wardrobe"),
   ("dac", "Dining room air conditioner"),
   ("dr1", "Dining room left shades"),
   ("dr2", "Dining room center shades"),
   ("dr3", "Dining room right shades"),
   ("drl", "Dining room lights"),
   ("drs", "Dining room light switch"),
   ("gbr", "Guest bathroom temperature controller"),
   ("gbrfh", "Guest bathroom floor heating"),
   ("hb", "Guest bathroom temperature valve"),
   ("k", "Kitchen shades"),
   ("kfh", "Kitchen floor heating"),
   ("kt", "Kitchen temperature controller"),
   ("lac", "Living room air conditioner"),
   ("ll", "Living room lights"),
   ("lr", "Living room shades"),
   ("ls", "Living room light switch"),
   ("oac", "Office air conditioner"),
   ("prx", "Proxy")]

/-- Model of get_service_name (src/main.rs, lines 88-90). -/
def get_service_name (key : String) : Option String :=
  (SERVICE_NAMES.find? (fun p => p.1 = key)).map (fun p => p.2)

/-- One row of the /services list page: the tuple
(&s.0, get_service_name(&s.0).unwrap_or(&s.0), &s.1, s.2) built by
list_services, i.e. (id, label, type, address). -/
abbrev Row := String × String × Option String × SockAddr

/-- The row built for one discovered service (src/main.rs, lines 101-103). -/
def rowOf (s : Service) : Row :=
  (s.1, (get_service_name s.1).getD s.1, s.2.1, s.2.2)

/-- Rust Ord on Option<String>, strict part: None is below every Some, and
Some values compare by the inner strings.  Rust compares strings by UTF-8
bytes; byte order on UTF-8 equals codepoint-lexicographic order, which is
the order of Lean strings. -/
def optStrLt (a b : Option String) : Prop :=
  match a, b with
  | none, none => False
  | none, some _ => True
  | some _, none => False
  | some x, some y => x < y

instance (a b : Option String) : Decidable (optStrLt a b) :=
  match a, b with
  | none, none => isFalse (fun h => h)
  | none, some _ => isTrue trivial
  | some _, none => isFalse (fun h => h)
  | some x, some y => inferInstanceAs (Decidable (x < y))

/-- Rust derived (lexicographic) Ord, non-strict, on the sort key
(Option<String>, &str) used by sort_by_key in list_services (line 105). -/
def keyLe (a b : Option String × String) : Prop :=
  optStrLt a.1 b.1 ∨ (a.1 = b.1 ∧ a.2 ≤ b.2)

instance (a b : Option String × String) : Decidable (keyLe a b) := by
  unfold keyLe
  infer_instance

/-- The sort key |k| (k.2, k.1) of a row: (type, label). -/
def rowKey (r : Row) : Option String × String :=
  (r.2.2.1, r.2.1)

/-- Row comparison used by the sort of the list page. -/
def rowLe (a b : Row) : Prop := keyLe (rowKey a) (rowKey b)

instance : DecidableRel rowLe :=
  fun a b => inferInstanceAs (Decidable (keyLe (rowKey a) (rowKey b)))

/-- Model of list_services (src/main.rs, lines 97-108): build the display row
of every discovered service and stable-sort by the key (type, label).  Rust
Vec::sort_by_key is a stable sort and List.insertionSort is a stable sort, so
on equal inputs they produce the same list. -/
def list_services (svcs : List Service) : List Row :=
  (svcs.map rowOf).insertionSort rowLe

/-! Association-list lemmas about insertEntry and lookupEntry. -/

theorem find?_map_replace (k : String) (v : ProxyEntry) (d : Dir)
    (h : d.any (fun p => p.1 = k) = true) :
    (d.map (fun p => if p.1 = k then (k, v) else p)).find? (fun p => p.1 = k) =
      some (k, v) := by
  induction d with
  | nil => simp at h
  | cons p t ih =>
    by_cases hp : p.1 = k
    · simp only [List.map_cons, if_pos hp]
      exact List.find?_cons_of_pos _ (by simp)
    · simp only [List.map_cons, if_neg hp]
      rw [List.find?_cons_of_neg _ (by simpa using hp)]
      apply ih
      simpa [List.any_cons, hp] using h

theorem find?_map_keep (k k' : String) (v : ProxyEntry) (hne : k' ≠ k) (d : Dir) :
    (d.map (fun p => if p.1 = k then (k, v) else p)).find? (fun p => p.1 = k') =
      d.find? (fun p => p.1 = k') := by
  induction d with
  | nil => rfl
  | cons p t ih =>
    by_cases hp : p.1 = k
    · simp only [List.map_cons, if_pos hp]
      rw [List.find?_cons_of_neg _ (by simpa using fun h : k = k' => hne h.symm),
        List.find?_cons_of_neg _ (by simpa using fun h : p.1 = k' => hne (h.symm.trans hp))]
      exact ih
    · simp only [List.map_cons, if_neg hp]
      by_cases hk' : p.1 = k'
      · rw [List.find?_cons_of_pos _ (by simpa using hk'),
          List.find?_cons_of_pos _ (by simpa using hk')]
      · rw [List.find?_cons_of_neg _ (by simpa using hk'),
          List.find?_cons_of_neg _ (by simpa using hk')]
        exact ih

theorem lookup_insertEntry_self (d : Dir) (k : String) (v : ProxyEntry) :
    lookupEntry (insertEntry d k v) k = some v := by
  unfold insertEntry lookupEntry
  by_cases h : d.any (fun p => p.1 = k) = true
  · rw [if_pos h, find?_map_replace k v d h]
    rfl
  · rw [if_neg h, List.find?_append]
    have hnone : d.find? (fun p => p.1 = k) = none := by
      rw [List.find?_eq_none]
      intro x hx hpx
      exact h (List.any_eq_true.mpr ⟨x, hx, hpx⟩)
    rw [hnone]
    simp

theorem lookup_insertEntry_ne (d : Dir) (k k' : String) (v : ProxyEntry)
    (hne : k' ≠ k) :
    lookupEntry (insertEntry d k v) k' = lookupEntry d k' := by
  unfold insertEntry lookupEntry
  by_cases h : d.any (fun p => p.1 = k) = true
  · rw [if_pos h, find?_map_keep k k' v hne d]
  · rw [if_neg h, List.find?_append]
    have h1 : [(k, v)].find? (fun p => p.1 = k') = none :=
      List.find?_cons_of_neg _ (by simpa using fun h : k = k' => hne h.symm)
    rw [h1, Option.or_none]

/-- C5: a record whose age at the sweep instant is exactly CLEANUP_TIMEOUT is
evicted by the sweep; in general a record survives the sweep exactly when it
is in the directory with age strictly below CLEANUP_TIMEOUT, so the eviction
condition is age ≥ CLEANUP_TIMEOUT and not age > CLEANUP_TIMEOUT. -/
theorem claim_C5_expiry_boundary (d : Dir) (k : String) (e : ProxyEntry) (now : Nat)
    (hage : now - e.update_timestamp = CLEANUP_TIMEOUT) :
    (k, e) ∉ expireSweep CLEANUP_TIMEOUT now d ∧
      ∀ k' e', (k', e') ∈ expireSweep CLEANUP_TIMEOUT now d ↔
        ((k', e') ∈ d ∧ now - e'.update_timestamp < CLEANUP_TIMEOUT) := by
  constructor
  · intro hmem
    rcases List.mem_filter.mp hmem with ⟨-, hkeep⟩
    simp only [keepEntry, decide_eq_true_eq] at hkeep
    rw [hage] at hkeep
    exact lt_irrefl _ hkeep
  · intro k' e'
    simp only [expireSweep, List.mem_filter]
    simp [keepEntry]

/-- Witness for C5 at a concrete directory: a record last seen at 0 is gone
from the sweep result at now = 3600 = CLEANUP_TIMEOUT. -/
theorem claim_C5_witness :
    ("ll", ProxyEntry.mk 0 (some "rgbw") ⟨5, 5683⟩) ∉
      expireSweep CLEANUP_TIMEOUT 3600 [("ll", ProxyEntry.mk 0 (some "rgbw") ⟨5, 5683⟩)] :=
  (claim_C5_expiry_boundary _ "ll" _ 3600 (by decide)).1

/-- C6: a record whose last_seen lies in the future of the sweep clock has its
elapsed time treated as 0 and is retained by the sweep (which, being a total
function, cannot fail). -/
theorem claim_C6_clock_anomaly (d : Dir) (k : String) (e : ProxyEntry) (now : Nat)
    (hmem : (k, e) ∈ d) (hfuture : now < e.update_timestamp) :
    now - e.update_timestamp = 0 ∧ (k, e) ∈ expireSweep CLEANUP_TIMEOUT now d := by
  have h0 : now - e.update_timestamp = 0 := Nat.sub_eq_zero_of_le (le_of_lt hfuture)
  refine ⟨h0, ?_⟩
  simp only [expireSweep, List.mem_filter]
  refine ⟨hmem, ?_⟩
  simp [keepEntry, h0, CLEANUP_TIMEOUT]

/-- Witness for C6: a record stamped 10 survives a sweep at now = 5. -/
theorem claim_C6_witness :
    (5 : Nat) - 10 = 0 ∧ ("ll", ProxyEntry.mk 10 (some "rgbw") ⟨5, 5683⟩) ∈
      expireSweep CLEANUP_TIMEOUT 5 [("ll", ProxyEntry.mk 10 (some "rgbw") ⟨5, 5683⟩)] :=
  claim_C6_clock_anomaly [("ll", ProxyEntry.mk 10 (some "rgbw") ⟨5, 5683⟩)] "ll"
    (ProxyEntry.mk 10 (some "rgbw") ⟨5, 5683⟩) 5 (List.mem_singleton.mpr rfl) (by decide)

/-- C7: after a single upsert of (id, t, a) at time ts, looking the id up
through Proxy::service returns exactly (t, a), present rather than absent. -/
theorem claim_C7_upsert_lookup (d : Dir) (id : String) (t : Option String)
    (a : SockAddr) (ts : Nat) :
    Proxy.service (insertEntry d id ⟨ts, t, a⟩) id = some (t, a) := by
  unfold Proxy.service
  rw [lookup_insertEntry_self]
  rfl

/-- C8: the discovery batch is folded into the directory in iteration order;
the stored record for an id is the wholesale record of the LAST occurrence of
that id in the batch (type, address and timestamp all taken from it), and ids
not in the batch keep their previous record. -/
theorem claim_C8_batch_order (batch : List (Nat × Service)) (d : Dir) (id : String) :
    lookupEntry (processBatch batch d) id =
      match batch.reverse.find? (fun it => it.2.1 = id) with
      | some it => some ⟨it.1, it.2.2.1, it.2.2.2⟩
      | none => lookupEntry d id := by
  induction batch generalizing d with
  | nil => rfl
  | cons x tb ih =>
    rw [show processBatch (x :: tb) d =
      processBatch tb (insertEntry d x.2.1 ⟨x.1, x.2.2.1, x.2.2.2⟩) from rfl]
    rw [ih, List.reverse_cons, List.find?_append]
    cases hfind : tb.reverse.find? (fun it => it.2.1 = id) with
    | some it => rfl
    | none =>
      by_cases hx : x.2.1 = id
      · rw [List.find?_cons_of_pos _ (by simpa using hx)]
        subst hx
        exact lookup_insertEntry_self d x.2.1 ⟨x.1, x.2.2.1, x.2.2.2⟩
      · rw [List.find?_cons_of_neg _ (by simpa using hx)]
        exact lookup_insertEntry_ne d x.2.1 id _ (fun h => hx h.symm)

/-- C9: the expiry sweep is idempotent at fixed horizon and clock reading:
running it twice with the same arguments equals running it once. -/
theorem claim_C9_expire_idempotent (horizon now : Nat) (d : Dir) :
    expireSweep horizon now (expireSweep horizon now d) = expireSweep horizon now d := by
  unfold expireSweep
  rw [List.filter_filter]
  simp

/-! Order facts about the list-page sort key. -/

theorem keyLe_total : ∀ (a b : Option String × String), keyLe a b ∨ keyLe b a
  | (none, la), (none, lb) => by
    rcases le_total la lb with h | h
    · exact Or.inl (Or.inr ⟨rfl, h⟩)
    · exact Or.inr (Or.inr ⟨rfl, h⟩)
  | (none, _), (some _, _) => Or.inl (Or.inl trivial)
  | (some _, _), (none, _) => Or.inr (Or.inl trivial)
  | (some x, la), (some y, lb) => by
    rcases lt_trichotomy x y with h | h | h
    · exact Or.inl (Or.inl h)
    · subst h
      rcases le_total la lb with h' | h'
      · exact Or.inl (Or.inr ⟨rfl, h'⟩)
      · exact Or.inr (Or.inr ⟨rfl, h'⟩)
    · exact Or.inr (Or.inl h)

theorem optStrLt_trans (a b c : Option String) (h1 : optStrLt a b) (h2 : optStrLt b c) :
    optStrLt a c := by
  cases a <;> cases b <;> cases c <;>
    first
      | exact trivial
      | exact False.elim h1
      | exact False.elim h2
      | exact lt_trans h1 h2

theorem keyLe_trans (a b c : Option String × String) (h1 : keyLe a b) (h2 : keyLe b c) :
    keyLe a c := by
  rcases h1 with h1 | ⟨h1e, h1l⟩
  · rcases h2 with h2 | ⟨h2e, h2l⟩
    · exact Or.inl (optStrLt_trans _ _ _ h1 h2)
    · exact Or.inl (h2e ▸ h1)
  · rcases h2 with h2 | ⟨h2e, h2l⟩
    · exact Or.inl (h1e ▸ h2)
    · exact Or.inr ⟨h1e.trans h2e, le_trans h1l h2l⟩

instance : IsTotal Row rowLe :=
  ⟨fun a b => keyLe_total (rowKey a) (rowKey b)⟩

instance : IsTrans Row rowLe :=
  ⟨fun a b c h1 h2 => keyLe_trans (rowKey a) (rowKey b) (rowKey c) h1 h2⟩

/-- The ordering property asserted by claim C2: rows with an absent type come
after every row with a present type, i.e. once a row with absent type occurs,
every later row also has absent type. -/
def absentTypeLast (rows : List Row) : Prop :=
  List.Pairwise (fun a b => a.2.2.1 = none → b.2.2.1 = none) rows

/-- Counterexample to C2: for the discovered set
[("zzz", type "rgbw"), ("aq", no type)] the list page puts the type-less
device FIRST, not last — Rust's derived Ord on Option places None below
Some, so absent types sort first.  (Both ids are outside the label table, so
their labels default to the ids; the page rows are otherwise as the claim
says.) -/
theorem claim_C2_counterexample :
    ¬ absentTypeLast (list_services
      [("zzz", some "rgbw", ⟨1, 1⟩), ("aq", none, ⟨2, 2⟩)]) := by
  intro h
  have hl : list_services [("zzz", some "rgbw", ⟨1, 1⟩), ("aq", none, ⟨2, 2⟩)] =
      [("aq", "aq", none, ⟨2, 2⟩), ("zzz", "zzz", some "rgbw", ⟨1, 1⟩)] := by decide
  rw [absentTypeLast, hl] at h
  rcases List.pairwise_cons.mp h with ⟨h1, -⟩
  have h2 := h1 _ (List.mem_singleton.mpr rfl) rfl
  simp at h2

/-- C2 amended: the list page presents the devices sorted by the pair
(type, label) where devices with an ABSENT type are ordered FIRST (Rust's
Option ordering: None < Some); the rows are exactly the rows of the
discovered devices (a permutation of them), and the label of a device whose
id has no entry in the static label table is the id itself. -/
theorem claim_C2_amended (svcs : List Service) :
    List.Sorted rowLe (list_services svcs) ∧
      List.Pairwise (fun a b : Row => b.2.2.1 = none → a.2.2.1 = none)
        (list_services svcs) ∧
      (list_services svcs).Perm (svcs.map rowOf) ∧
      ∀ r ∈ list_services svcs, get_service_name r.1 = none → r.2.1 = r.1 := by
  have hsorted : List.Sorted rowLe (list_services svcs) :=
    List.sorted_insertionSort rowLe (svcs.map rowOf)
  have hperm : (list_services svcs).Perm (svcs.map rowOf) :=
    List.perm_insertionSort rowLe (svcs.map rowOf)
  refine ⟨hsorted, ?_, hperm, ?_⟩
  · refine hsorted.imp ?_
    intro a b hab hb
    unfold rowLe keyLe at hab
    have hbk : (rowKey b).1 = none := hb
    rcases hab with hlt | ⟨heq, -⟩
    · rw [hbk] at hlt
      cases hak : (rowKey a).1 with
      | none => exact hak
      | some x => rw [hak] at hlt; exact hlt.elim
    · rw [hbk] at heq
      exact heq
  · intro r hr hname
    have hr' : r ∈ svcs.map rowOf := hperm.mem_iff.mp hr
    rcases List.mem_map.mp hr' with ⟨s, -, hs⟩
    subst hs
    simp only [rowOf] at hname ⊢
    rw [hname]
    rfl

/-- Witness for C2 at a concrete input: the defaulted label of the unknown id
"aq" is "aq" itself, via the amended theorem. -/
theorem claim_C2_witness :
    (("aq", "aq", none, ⟨2, 2⟩) : Row).2.1 = (("aq", "aq", none, ⟨2, 2⟩) : Row).1 :=
  (claim_C2_amended [("zzz", some "rgbw", ⟨1, 1⟩), ("aq", none, ⟨2, 2⟩)]).2.2.2
    ("aq", "aq", none, ⟨2, 2⟩) (by decide) (by decide)

/-- Model of ciborium::value::Value.  The Float constructor of the Rust type
carries a floating-point payload that no claim and no embedded code path ever
reads, so it is modeled payload-free. -/
inductive CborValue where
  | integer (i : Int)
  | bytes (b : List Nat)
  | float
  | text (s : String)
  | bool (b : Bool)
  | null
  | tag (t : Nat) (v : CborValue)
  | array (l : List CborValue)
  | map (m : List (CborValue × CborValue))

/-- Model of cbor_map_get (src/main.rs, lines 254-263): scan the entries in
order, return the value of the first entry whose key is a Text equal to the
requested key; entries whose key is not Text are skipped. -/
def cbor_map_get : List (CborValue × CborValue) → String → Option CborValue
  | [], _ => none
  | (CborValue.text entryKey, value) :: rest, key =>
    if entryKey = key then some value else cbor_map_get rest key
  | _ :: rest, key => cbor_map_get rest key

theorem cbor_map_get_append_first (k : String) (v : CborValue)
    (rest : List (CborValue × CborValue)) :
    ∀ pre, (∀ e ∈ pre, e.1 ≠ CborValue.text k) →
      cbor_map_get (pre ++ (CborValue.text k, v) :: rest) k = some v := by
  intro pre
  induction pre with
  | nil =>
    intro _
    simp [cbor_map_get]
  | cons e t ih =>
    intro hpre
    have hek : e.1 ≠ CborValue.text k := hpre e (List.mem_cons_self e t)
    have ht : ∀ x ∈ t, x.1 ≠ CborValue.text k :=
      fun x hx => hpre x (List.mem_cons_of_mem e hx)
    rw [List.cons_append]
    rcases e with ⟨a, b⟩
    cases a with
    | text s =>
      have hsk : ¬(s = k) := fun h => hek (by rw [h])
      simp only [cbor_map_get, if_neg hsk]
      exact ih ht
    | integer i => exact ih ht
    | bytes l => exact ih ht
    | float => exact ih ht
    | bool c => exact ih ht
    | null => exact ih ht
    | tag n w => exact ih ht
    | array l => exact ih ht
    | map mm => exact ih ht

theorem cbor_map_get_none (k : String) :
    ∀ m, (∀ e ∈ m, e.1 ≠ CborValue.text k) → cbor_map_get m k = none := by
  intro m
  induction m with
  | nil => intro _; rfl
  | cons e t ih =>
    intro hm
    have hek : e.1 ≠ CborValue.text k := hm e (List.mem_cons_self e t)
    have ht : ∀ x ∈ t, x.1 ≠ CborValue.text k :=
      fun x hx => hm x (List.mem_cons_of_mem e hx)
    rcases e with ⟨a, b⟩
    cases a with
    | text s =>
      have hsk : ¬(s = k) := fun h => hek (by rw [h])
      simp only [cbor_map_get, if_neg hsk]
      exact ih ht
    | integer i => exact ih ht
    | bytes l => exact ih ht
    | float => exact ih ht
    | bool c => exact ih ht
    | null => exact ih ht
    | tag n w => exact ih ht
    | array l => exact ih ht
    | map mm => exact ih ht

/-- C10: the lookup returns the value of the FIRST entry (in map order) whose
key is a CBOR text string equal to the requested key, skipping entries whose
keys are not text strings; a later duplicate (inside rest) is ignored, and if
no text-key entry equals the key the lookup returns absent. -/
theorem claim_C10_cbor_lookup (m : List (CborValue × CborValue)) (k : String) :
    (∀ pre v rest, m = pre ++ (CborValue.text k, v) :: rest →
        (∀ e ∈ pre, e.1 ≠ CborValue.text k) → cbor_map_get m k = some v) ∧
      ((∀ e ∈ m, e.1 ≠ CborValue.text k) → cbor_map_get m k = none) := by
  constructor
  · intro pre v rest hm hpre
    rw [hm]
    exact cbor_map_get_append_first k v rest pre hpre
  · exact cbor_map_get_none k m

/-- Witness for C10: a map holding a non-text key, a different text key, the
requested key and a later duplicate of it; the lookup returns the value 7 of
the first matching entry. -/
theorem claim_C10_witness :
    cbor_map_get
      [(CborValue.integer 1, CborValue.integer 2),
       (CborValue.text "x", CborValue.integer 4),
       (CborValue.text "k", CborValue.integer 7),
       (CborValue.text "k", CborValue.integer 9)] "k" = some (CborValue.integer 7) :=
  (claim_C10_cbor_lookup _ "k").1
    [(CborValue.integer 1, CborValue.integer 2),
     (CborValue.text "x", CborValue.integer 4)]
    (CborValue.integer 7) [(CborValue.text "k", CborValue.integer 9)] rfl
    (by
      intro e he
      rcases List.mem_cons.mp he with h | h
      · subst h
        exact fun hc => CborValue.noConfusion hc
      · rw [List.mem_singleton.mp h]
        intro hc
        exact absurd (CborValue.text.inj hc) (by decide))

/-! The rgbw form handler (src/main.rs, lines 132-204). -/

/-- Model of char::to_digit(c, 16): digit value of an ASCII hex digit in
either letter case, written on the codepoint c.toNat. -/
def hexVal? (c : Char) : Option Nat :=
  if 48 ≤ c.toNat ∧ c.toNat ≤ 57 then some (c.toNat - 48)
  else if 97 ≤ c.toNat ∧ c.toNat ≤ 102 then some (c.toNat - 87)
  else if 65 ≤ c.toNat ∧ c.toNat ≤ 70 then some (c.toNat - 55)
  else none

/-- Digit loop of from_str_radix: consume every remaining char as a base-16
digit, accumulating the value; none on the first non-digit.  The accumulated
value is monotone in the steps, so the per-step overflow checks of the Rust
loop are equivalent to the final bound check done by the caller. -/
def hexDigitsVal? : List Char → Nat → Option Nat
  | [], acc => some acc
  | c :: rest, acc =>
    match hexVal? c with
    | some d => hexDigitsVal? rest (16 * acc + d)
    | none => none

/-- Model of u8::from_str_radix(s, 16): an optional leading '+' or '-' sign,
then at least one base-16 digit; the value must fit in u8 (after '-' only the
value 0 fits).  Empty input, a lone sign, a bad digit or an out-of-range
value are Err, modeled as none. -/
def u8_from_str_radix16 (cs : List Char) : Option Nat :=
  match cs with
  | [] => none
  | c :: rest =>
    if c = '+' then
      match rest with
      | [] => none
      | _ =>
        match hexDigitsVal? rest 0 with
        | some v => if v ≤ 255 then some v else none
        | none => none
    else if c = '-' then
      match rest with
      | [] => none
      | _ =>
        match hexDigitsVal? rest 0 with
        | some v => if v = 0 then some 0 else none
        | none => none
    else
      match hexDigitsVal? (c :: rest) 0 with
      | some v => if v ≤ 255 then some v else none
      | none => none

/-- Model of Rgbw::channel (src/main.rs, lines 149-155).  trim_start_matches
removes EVERY leading '#'.  The byte slice hex_str[2*idx .. 2*idx+2] panics
when its end lies beyond the end of the string, and from_str_radix(..).expect
panics on a parse error: both panics are none.  Strings are modeled as char
lists; a Rust slice that cuts a multi-byte char panics on a char boundary,
and in the list model the corresponding pair holds a non-ASCII char and fails
the parse, so the two models refuse the same inputs. -/
def channel (rgb : String) (idx : Nat) : Option Nat :=
  let hexStr := rgb.data.dropWhile (fun c => c = '#')
  let offsetStart := 2 * idx
  let offsetEnd := 2 * idx + 2
  if offsetEnd ≤ hexStr.length then
    u8_from_str_radix16 ((hexStr.drop offsetStart).take 2)
  else
    none

/-- The three channel reads rgbw.r(), rgbw.g(), rgbw.b() evaluated in order
while service_rgbw builds the SET payload; the first panic aborts the rest. -/
def rgbwChannels (rgb : String) : Option (Nat × Nat × Nat) := do
  let r ← channel rgb 0
  let g ← channel rgb 1
  let b ← channel rgb 2
  pure (r, g, b)

/-- Outcome of the POST branch of service_rgbw.  The axum form parser accepts
ANY string for the rgb field (the field is a plain String), so the branch
either panics inside Rgbw::channel or sends the CBOR SET payload and
re-renders the submitted values. -/
inductive PostResult where
  | rendered (rgbEcho : String) (wEcho : Nat) (payload : List (CborValue × CborValue))
  | panic

/-- Model of the POST branch of service_rgbw (src/main.rs, lines 164-175):
build the CBOR map {r, g, b, w, d: 3000} from the parsed form and echo the
submitted rgb string and w value into the rendered page. -/
def rgbwPost (rgb : String) (w : Nat) : PostResult :=
  match rgbwChannels rgb with
  | some (r, g, b) =>
    PostResult.rendered rgb w
      [(CborValue.text "r", CborValue.integer r),
       (CborValue.text "g", CborValue.integer g),
       (CborValue.text "b", CborValue.integer b),
       (CborValue.text "w", CborValue.integer w),
       (CborValue.text "d", CborValue.integer 3000)]
  | none => PostResult.panic

/-- Lowercase hex digit char, for format with 02x. -/
def hexDigitChar (n : Nat) : Char :=
  if n < 10 then Char.ofNat (48 + n) else Char.ofNat (87 + n)

/-- format with spec 02x applied to a u8 value: exactly two lowercase hex
digits. -/
def hex2 (n : Nat) : String :=
  String.mk [hexDigitChar (n / 16), hexDigitChar (n % 16)]

/-- value.as_integer().unwrap().try_into::<u8>().expect(..): none models the
panic on a non-integer CBOR value or an out-of-u8-range integer. -/
def cborU8? (v : CborValue) : Option Nat :=
  match v with
  | CborValue.integer i => if 0 ≤ i ∧ i ≤ 255 then some i.toNat else none
  | _ => none

/-- Outcome of the GET branch of service_rgbw: a rendered page (rgb string
plus the raw CBOR value inserted for w), an error page naming the missing
parameter, or a panic. -/
inductive GetResult where
  | rendered (rgb : String) (w : CborValue)
  | errorMissing (param : String)
  | panic

/-- The channel loop of the GET branch (src/main.rs, lines 184-192),
accumulating the hex text onto the initial "#". -/
def buildRgb (data : List (CborValue × CborValue)) :
    List String → String → Except GetResult String
  | [], acc => Except.ok acc
  | ch :: restChannels, acc =>
    match cbor_map_get data ch with
    | some v =>
      match cborU8? v with
      | some byte => buildRgb data restChannels (acc ++ hex2 byte)
      | none => Except.error GetResult.panic
    | none => Except.error (GetResult.errorMissing ch)

/-- Model of the GET branch of service_rgbw (src/main.rs, lines 176-200)
after the CoAP response has been reduced to a CBOR map. -/
def rgbwGet (data : List (CborValue × CborValue)) : GetResult :=
  match buildRgb data ["r", "g", "b"] "#" with
  | Except.error r => r
  | Except.ok rgb =>
    match cbor_map_get data "w" with
    | some v => GetResult.rendered rgb v
    | none => GetResult.errorMissing "w"

/-- The set of rgb values claim C3 declares valid: a 6-hex-digit string with
or without a (single) leading '#', in either letter case.  Written from the
claim wording, for comparison with the code model. -/
def claimValidRgb (s : String) : Bool :=
  let l := if s.data.head? = some '#' then s.data.tail else s.data
  l.length = 6 && l.all (fun c => (hexVal? c).isSome)

/-- Acceptance condition the code actually implements, reformulated: after
stripping every leading '#', the first three 2-character slices must each
parse under u8::from_str_radix(_, 16); trailing characters are ignored. -/
def specRgbwAccept (s : String) : Option (Nat × Nat × Nat) :=
  match s.data.dropWhile (fun c => c = '#') with
  | c0 :: c1 :: c2 :: c3 :: c4 :: c5 :: _ =>
    match u8_from_str_radix16 [c0, c1], u8_from_str_radix16 [c2, c3],
        u8_from_str_radix16 [c4, c5] with
    | some r, some g, some b => some (r, g, b)
    | _, _, _ => none
  | _ => none

theorem hexVal?_le15 {c : Char} {d : Nat} (h : hexVal? c = some d) : d ≤ 15 := by
  unfold hexVal? at h
  split_ifs at h with h1 h2 h3 <;> simp at h <;> omega

theorem hexVal?_ne (c : Char) (d : Nat) (h : hexVal? c = some d) (x : Char)
    (hx : hexVal? x = none) : c ≠ x := by
  intro he
  rw [he, hx] at h
  exact Option.noConfusion h

theorem u8_pair (c0 c1 : Char) (d0 d1 : Nat) (h0 : hexVal? c0 = some d0)
    (h1 : hexVal? c1 = some d1) :
    u8_from_str_radix16 [c0, c1] = some (16 * d0 + d1) := by
  have hp : c0 ≠ '+' := hexVal?_ne _ _ h0 _ (by decide)
  have hm : c0 ≠ '-' := hexVal?_ne _ _ h0 _ (by decide)
  have hb0 := hexVal?_le15 h0
  have hb1 := hexVal?_le15 h1
  simp only [u8_from_str_radix16]
  rw [if_neg hp, if_neg hm]
  simp only [hexDigitsVal?, h0, h1, Nat.mul_zero, Nat.zero_add]
  rw [if_pos (by omega)]

theorem rgbwChannels_eq_spec (s : String) : rgbwChannels s = specRgbwAccept s := by
  rcases hl : s.data.dropWhile (fun c => c = '#') with
    _ | ⟨c0, _ | ⟨c1, _ | ⟨c2, _ | ⟨c3, _ | ⟨c4, _ | ⟨c5, tl⟩⟩⟩⟩⟩⟩
  · simp [rgbwChannels, specRgbwAccept, channel, hl]
  · simp [rgbwChannels, specRgbwAccept, channel, hl]
  · cases h01 : u8_from_str_radix16 [c0, c1] <;>
      simp [rgbwChannels, specRgbwAccept, channel, hl, h01]
  · cases h01 : u8_from_str_radix16 [c0, c1] <;>
      simp [rgbwChannels, specRgbwAccept, channel, hl, h01]
  · cases h01 : u8_from_str_radix16 [c0, c1] <;>
      cases h23 : u8_from_str_radix16 [c2, c3] <;>
        simp [rgbwChannels, specRgbwAccept, channel, hl, h01, h23]
  · cases h01 : u8_from_str_radix16 [c0, c1] <;>
      cases h23 : u8_from_str_radix16 [c2, c3] <;>
        simp [rgbwChannels, specRgbwAccept, channel, hl, h01, h23]
  · have hlen0 : 2 * 0 + 2 ≤ (c0 :: c1 :: c2 :: c3 :: c4 :: c5 :: tl).length := by
      simp only [List.length_cons]; omega
    have hlen1 : 2 * 1 + 2 ≤ (c0 :: c1 :: c2 :: c3 :: c4 :: c5 :: tl).length := by
      simp only [List.length_cons]; omega
    have hlen2 : 2 * 2 + 2 ≤ (c0 :: c1 :: c2 :: c3 :: c4 :: c5 :: tl).length := by
      simp only [List.length_cons]; omega
    cases h01 : u8_from_str_radix16 [c0, c1] <;>
      cases h23 : u8_from_str_radix16 [c2, c3] <;>
        cases h45 : u8_from_str_radix16 [c4, c5] <;>
          simp [rgbwChannels, specRgbwAccept, channel, hl, h01, h23, h45,
            hlen0, hlen1, hlen2]

/-- Counterexample to C3: the submitted rgb value "zz0000" is not of the
claimed valid shape, yet it is not rejected as a form-parse error surfaced as
an error page: the handler PANICS inside Rgbw::channel (the form parser
itself accepts any string for the rgb field).  Moreover "aabbccdd" is also
outside the claimed valid set (eight hex digits) yet the handler ACCEPTS it,
decomposing its first three pairs. -/
theorem claim_C3_counterexample :
    (claimValidRgb "zz0000" = false ∧ rgbwPost "zz0000" 0 = PostResult.panic) ∧
      (claimValidRgb "aabbccdd" = false ∧
        rgbwChannels "aabbccdd" = some (0xaa, 0xbb, 0xcc)) :=
  ⟨⟨by decide, rfl⟩, ⟨by decide, rfl⟩⟩

/-- C3 amended: acceptance of the rgb form value is decided by the three
2-character slices at offsets 0, 2, 4 of the string after stripping EVERY
leading '#': the value is accepted iff each slice parses under
u8::from_str_radix(_, 16) (so each 6-hex-digit string with or without a
leading '#', in either letter case, is accepted and decomposed into its
three channel bytes — but strings with several leading '#'s, trailing
characters, or signed 2-character slices are accepted as well); every other
string makes the handler PANIC (expect on a parse error, or an out-of-range
slice), not a form-parse error page. -/
theorem claim_C3_amended (s : String) (w : Nat) :
    rgbwChannels s = specRgbwAccept s ∧
      (rgbwChannels s = none → rgbwPost s w = PostResult.panic) ∧
      (∀ (pre : List Char) (c0 c1 c2 c3 c4 c5 : Char) (d0 d1 d2 d3 d4 d5 : Nat),
        pre = [] ∨ pre = ['#'] →
        hexVal? c0 = some d0 → hexVal? c1 = some d1 → hexVal? c2 = some d2 →
        hexVal? c3 = some d3 → hexVal? c4 = some d4 → hexVal? c5 = some d5 →
        rgbwChannels (String.mk (pre ++ [c0, c1, c2, c3, c4, c5])) =
          some (16 * d0 + d1, 16 * d2 + d3, 16 * d4 + d5)) := by
  refine ⟨rgbwChannels_eq_spec s, ?_, ?_⟩
  · intro hnone
    unfold rgbwPost
    rw [hnone]
  · intro pre c0 c1 c2 c3 c4 c5 d0 d1 d2 d3 d4 d5 hpre h0 h1 h2 h3 h4 h5
    have e01 := u8_pair _ _ _ _ h0 h1
    have e23 := u8_pair _ _ _ _ h2 h3
    have e45 := u8_pair _ _ _ _ h4 h5
    have hc0 : ¬(c0 = '#') := hexVal?_ne _ _ h0 _ (by decide)
    rw [rgbwChannels_eq_spec]
    rcases hpre with hpre | hpre <;> subst hpre
    · simp [specRgbwAccept, List.dropWhile_cons, hc0, e01, e23, e45]
    · simp [specRgbwAccept, List.dropWhile_cons, hc0, e01, e23, e45]

/-- Witness for C3 amended at concrete inputs: "zz0000" makes the POST branch
panic, and "#A1b2C3" (mixed case, leading '#') is decomposed into the bytes
0xa1, 0xb2, 0xc3. -/
theorem claim_C3_witness :
    rgbwPost "zz0000" 3 = PostResult.panic ∧
      rgbwChannels (String.mk (['#'] ++ ['A', '1', 'b', '2', 'C', '3'])) =
        some (16 * 10 + 1, 16 * 11 + 2, 16 * 12 + 3) :=
  ⟨(claim_C3_amended "zz0000" 3).2.1 rfl,
   (claim_C3_amended (String.mk (['#'] ++ ['A', '1', 'b', '2', 'C', '3'])) 0).2.2
     ['#'] 'A' '1' 'b' '2' 'C' '3' 10 1 11 2 12 3 (Or.inr rfl)
     (by decide) (by decide) (by decide) (by decide) (by decide) (by decide)⟩

/-- Counterexample to C4: encoding the form (rgb = "#a1b2c3", w = 10) does
produce exactly the CBOR map {r: 0xa1, g: 0xb2, b: 0xc3, w: 10, d: 3000},
but decoding that map back on a GET renders rgb = "#a1b2c3" — the code seeds
the display string with '#' — not "a1b2c3" as the claim states. -/
theorem claim_C4_counterexample :
    rgbwPost "#a1b2c3" 10 = PostResult.rendered "#a1b2c3" 10
      [(CborValue.text "r", CborValue.integer 161),
       (CborValue.text "g", CborValue.integer 178),
       (CborValue.text "b", CborValue.integer 195),
       (CborValue.text "w", CborValue.integer 10),
       (CborValue.text "d", CborValue.integer 3000)] ∧
    rgbwGet
      [(CborValue.text "r", CborValue.integer 161),
       (CborValue.text "g", CborValue.integer 178),
       (CborValue.text "b", CborValue.integer 195),
       (CborValue.text "w", CborValue.integer 10),
       (CborValue.text "d", CborValue.integer 3000)] =
      GetResult.rendered "#a1b2c3" (CborValue.integer 10) ∧
    "#a1b2c3" ≠ "a1b2c3" :=
  ⟨rfl, rfl, by decide⟩

/-- C4 amended: encoding the rgbw form (rgb = "#a1b2c3", w = 10) produces
exactly the CBOR map {r: 0xa1, g: 0xb2, b: 0xc3, w: 10, d: 3000}, and
decoding that map back on a GET yields for display rgb = "#a1b2c3" (with the
leading '#') and w = 10. -/
theorem claim_C4_amended :
    rgbwPost "#a1b2c3" 10 = PostResult.rendered "#a1b2c3" 10
      [(CborValue.text "r", CborValue.integer 161),
       (CborValue.text "g", CborValue.integer 178),
       (CborValue.text "b", CborValue.integer 195),
       (CborValue.text "w", CborValue.integer 10),
       (CborValue.text "d", CborValue.integer 3000)] ∧
    rgbwGet
      [(CborValue.text "r", CborValue.integer 161),
       (CborValue.text "g", CborValue.integer 178),
       (CborValue.text "b", CborValue.integer 195),
       (CborValue.text "w", CborValue.integer 10),
       (CborValue.text "d", CborValue.integer 3000)] =
      GetResult.rendered "#a1b2c3" (CborValue.integer 10) :=
  ⟨rfl, rfl⟩

/-- C1 (code bug): when the CoAP service-discovery call fails, the code
unwraps the Err and panics, aborting the discovery task for good: the cycle
evaluates to the panic outcome none, which is not the skip outcome some d
(directory unchanged, task alive to retry on the next cycle) that the claim
describes.  The spec itself flags this divergence and states the non-fatal
skip as the design intent. -/
theorem claim_C1_discovery_error_panics (e : String) (d : Dir) :
    discoveryCycle (Except.error e) d = none ∧
      discoveryCycle (Except.error e) d ≠ some d :=
  ⟨rfl, fun h => Option.noConfusion h⟩

end HomeWeb
